import Mathlib

/-!
Verification of the snake vim-scripting convenience layer
(src/plugin/snake/__init__.py).

The development shallowly embeds the two stateful pieces of the module:

* the callback registry (_mapped_functions, register_fn,
  dispatch_mapped_function), modelled as an explicitly threaded mapping from
  integer keys to callables, and

* the scoped state-preservation helpers (preserve_cursor, preserve_mode,
  preserve_registers) together with the primitives they drive (get_register,
  set_register, clear_register, keys, command), modelled as pure functions on
  an explicit editor state.

The host editor itself is external to the repository; its command evaluator is
modelled per the specification: textual commands change an editor state
consisting of a cursor position, a mode string, register contents, the
recorded last visual mode (what the gv keystroke re-enters) and the active
message-redirection target.  Writing a register through the evaluator's let
mechanism also updates what the unnamed special register yields — the
perturbation of special registers by the restore mechanism that the
specification describes.  A wrapped operation ("body") is an arbitrary state
transformer returning a value — normally an Except value, whose error
constructor models a raised exception — together with the post-state;
context-manager try/finally semantics is the restoration being applied to the
body's post-state on both outcomes.
-/

variable {α β : Type}

/-- A user-supplied Python callable as the callback registry sees it: it has an
object identity (the value the CPython builtin id returns for it, distinct for
distinct live objects) and, since the registry only ever invokes it with no
arguments, a single return value. -/
structure Callable (α : Type) where
  ident : Nat
  ret : α

/-- The process-wide _mapped_functions mapping (line 33 of the source),
threaded explicitly: integer keys to stored callables, none for absent keys. -/
abbrev Registry (α : Type) : Type := Nat → Option (Callable α)

/-- The message of the exception raised by dispatch_mapped_function
(lines 77-82) when the key is absent: the dedicated stale-handle failure. -/
def stale_handle_message (key : Nat) : String :=
  "unable to find mapped function with id() == " ++ Nat.repr key ++ ".\n" ++
  "            Something bad related to reloading has happened.  Typically, this is\n" ++
  "            because you set up a key_map inside of a @when_buffer_is and\n" ++
  "            reloaded your ~/.vim.py.  The result is that the function decorated\n" ++
  "            by @when_buffer_is isn't re-run with updated key_mappings, so the\n" ++
  "            key_mappings have references to old callbacks."

/-- Translation of dispatch_mapped_function (lines 69-84): look the key up in
the registry; on a hit invoke the stored callable with no arguments and return
its value, on a miss raise the stale-handle exception.  The second component is
the trace of callables invoked during the call, so that invocation counts are
observable. -/
def dispatch_mapped_function (reg : Registry α) (key : Nat) :
    Except String α × List (Callable α) :=
  match reg key with
  | some fn => (Except.ok fn.ret, [fn])
  | none => (Except.error (stale_handle_message key), [])

/-- Translation of register_fn (lines 104-109): the key is id(fn), the callable
is stored under it (overwriting any previous entry with that key), and the
returned handle is the textual python-command fragment embedding the key. -/
def register_fn (fn : Callable α) (reg : Registry α) : String × Registry α :=
  ("snake.dispatch_mapped_function(" ++ Nat.repr fn.ident ++ ")",
   fun k => if k = fn.ident then some fn else reg k)

/-- The ambient editor state the helpers read and write.  Modelled from the
spec: cursor position, mode string (as the mode() builtin reports it), the
contents of every register (the empty string for an empty register), the
recorded last visual mode that the gv keystroke re-enters, the active
message-redirection target, and a log of key sequences fed to the editor. -/
structure EditorState where
  cursor : Int × Int
  mode : String
  lastVisual : String
  reg : String → String
  redir : Option String
  keylog : List String

/-- Modelled from the spec: the host evaluator's register write.  Writing a
register sets its contents; writing any register other than the unnamed
special register additionally updates what the unnamed register yields (the
side effect of the restore mechanism on special registers that section 4.2 of
the spec describes). -/
def write_register (r : String → String) (name val : String) : String → String :=
  fun x => if x = name then val else if name ≠ "\"" ∧ x = "\"" then val else r x

/-- Translation of get_register (lines 364-368): read the register and turn
empty contents into None. -/
def get_register (name : String) (s : EditorState) : Option String :=
  if s.reg name = "" then none else some (s.reg name)

/-- Translation of set_register (lines 373-375).  The source double-quote
escapes the value and embeds it in a let command; the evaluator parses the
escaped literal back, so the register receives the value itself. -/
def set_register (name val : String) (s : EditorState) : EditorState :=
  { s with reg := write_register s.reg name val }

/-- Translation of clear_register (lines 370-371). -/
def clear_register (name : String) (s : EditorState) : EditorState :=
  set_register name "" s

/-- Translation of get_cursor_position (lines 225-228). -/
def get_cursor_position (s : EditorState) : Int × Int :=
  s.cursor

/-- Translation of set_cursor_position (lines 230-233): the formatted setpos
call moves the cursor to the given position. -/
def set_cursor_position (p : Int × Int) (s : EditorState) : EditorState :=
  { s with cursor := p }

/-- Translation of get_mode (lines 214-215). -/
def get_mode (s : EditorState) : String :=
  s.mode

/-- The visual_modes tuple of preserve_mode (line 133). -/
def visual_modes : List String := ["v", "V", "^V"]

/-- Character-level double-quote escaping, the effect of
str.replace applied by escape_string_dq. -/
def escape_dq_chars : List Char → List Char
  | [] => []
  | c :: rest =>
      if c = '"' then '\\' :: '"' :: escape_dq_chars rest
      else c :: escape_dq_chars rest

/-- Translation of escape_string_dq (lines 251-253). -/
def escape_string_dq (s : String) : String :=
  (escape_dq_chars s.data).asString

/-- Modelled from the spec: the host's effect of feeding the two key sequences
the mode-restoration helper uses through execute normal.  Pressing gv
re-enters the recorded last visual mode; pressing escape returns to normal
mode, recording the visual mode being left.  Other key sequences are outside
the scope of the claims and only extend the log.  Every fed sequence is
appended to the keystroke log. -/
def feedkeys (k : String) (s : EditorState) : EditorState :=
  let s1 : EditorState := { s with keylog := s.keylog ++ [k] }
  if k = "gv" then { s1 with mode := s1.lastVisual }
  else if k = "\\<esc>" then
    if s1.mode ∈ visual_modes then { s1 with mode := "n", lastVisual := s1.mode }
    else { s1 with mode := "n" }
  else s1

/-- Translation of keys (lines 346-362) for the sequences the helpers feed:
the sequence is double-quote escaped and handed to execute normal.  The leader
substitution branch is not modelled: the sequences fed by the code under
verification (gv and escape) never contain the word leader, so that branch is
never taken for them. -/
def keys (k : String) (s : EditorState) : EditorState :=
  feedkeys (escape_string_dq k) s

/-- Translation of preserve_cursor (lines 111-119): capture the cursor
position, run the body, and restore the position in the finally block — on the
normal and the exceptional exit alike — passing the body's outcome through
unchanged. -/
def preserve_cursor (body : EditorState → α × EditorState) (s : EditorState) :
    α × EditorState :=
  ((body s).1, set_cursor_position (get_cursor_position s) (body s).2)

/-- The finally block of preserve_mode (lines 137-144): compare the current
mode with the mode captured on entry and feed gv (re-enter the last visual
selection) or escape (cancel back to normal mode) in the two asymmetric
cases. -/
def mode_restore (old_mode : String) (s1 : EditorState) : EditorState :=
  if get_mode s1 = "n" then
    if old_mode ∈ visual_modes then keys "gv" s1 else s1
  else if get_mode s1 ∈ visual_modes then
    if old_mode = "n" then keys "\\<esc>" s1 else s1
  else s1

/-- Translation of preserve_mode (lines 129-144): capture the mode, run the
body, and run the mode comparison of the finally block on the way out, passing
the body's outcome through unchanged. -/
def preserve_mode (body : EditorState → α × EditorState) (s : EditorState) :
    α × EditorState :=
  ((body s).1, mode_restore (get_mode s) (body s).2)

/-- The special_regs tuple of preserve_registers (line 151). -/
def special_regs : List String := ["0", "\""]

/-- The first entry loop of preserve_registers (lines 153-156): for each named
register in order, record its contents (as get_register reports them, None for
empty) in the old_regs dictionary and clear the register.  The dictionary is
modelled as a total function updated per assignment, so a repeated name keeps
its last written value just as a dict key would. -/
def capture_and_clear (regs : List String) (old : String → Option String)
    (s : EditorState) : (String → Option String) × EditorState :=
  match regs with
  | [] => (old, s)
  | r :: rest =>
      capture_and_clear rest
        (fun x => if x = r then get_register r s else old x)
        (clear_register r s)

/-- The second entry loop of preserve_registers (lines 160-162): record the
special registers' contents without clearing them. -/
def capture_specials (regs : List String) (old : String → Option String)
    (s : EditorState) : String → Option String :=
  match regs with
  | [] => old
  | r :: rest =>
      capture_specials rest (fun x => if x = r then get_register r s else old x) s

/-- The whole entry phase of preserve_registers (lines 149-162): the old_regs
snapshot and the state in which the wrapped block starts. -/
def registers_snapshot (regs : List String) (s : EditorState) :
    (String → Option String) × EditorState :=
  (capture_specials special_regs (capture_and_clear regs (fun _ => none) s).1
      (capture_and_clear regs (fun _ => none) s).2,
   (capture_and_clear regs (fun _ => none) s).2)

/-- The finally block of preserve_registers (lines 167-173): walk the given
register order and put each register back to its recorded contents — a clear
when None was recorded, a set otherwise. -/
def restore_old_regs (old : String → Option String) (order : List String)
    (s : EditorState) : EditorState :=
  match order with
  | [] => s
  | r :: rest =>
      restore_old_regs old rest
        (match old r with
         | none => clear_register r s
         | some v => set_register r v s)

/-- Translation of preserve_registers (lines 146-173): capture and clear the
named registers, capture the special registers, run the body, and restore over
the order regs ++ special_regs in the finally block, passing the body's
outcome through unchanged. -/
def preserve_registers (regs : List String)
    (body : EditorState → α × EditorState) (s : EditorState) :
    α × EditorState :=
  ((body (registers_snapshot regs s).2).1,
   restore_old_regs (registers_snapshot regs s).1 (regs ++ special_regs)
     (body (registers_snapshot regs s).2).2)

/-- Modelled from the spec: one vim.command call into the host evaluator.  The
two redirection control commands issued by command() are interpreted directly:
starting redirection to register a overwrites that register and records the
target, ending it clears the target.  Any other command text is executed by
the ambient evaluator exec, and its textual output is appended to the
redirection target while redirection is active. -/
def vim_command (exec : String → EditorState → EditorState × String)
    (c : String) (s : EditorState) : EditorState :=
  if c = "redir @a" then { set_register "a" "" s with redir := some "a" }
  else if c = "redir END" then { s with redir := none }
  else
    match (exec c s).1.redir with
    | some tgt => set_register tgt ((exec c s).1.reg tgt ++ (exec c s).2) (exec c s).1
    | none => (exec c s).1

/-- Translation of command (lines 54-66): without capture, execute the command
and return None; with capture, inside preserve_registers on register a,
redirect messages to register a, execute the command, end redirection and read
register a back through get_register. -/
def command (exec : String → EditorState → EditorState × String) (cmd : String)
    (capture : Bool) (s : EditorState) : Option String × EditorState :=
  if capture then
    preserve_registers ["a"]
      (fun w =>
        let w1 := vim_command exec "redir @a" w
        let w2 := vim_command exec cmd w1
        let w3 := vim_command exec "redir END" w2
        (get_register "a" w3, w3)) s
  else
    (none, vim_command exec cmd s)

/-- Value of a decimal digit character, for reasoning about the decimal
rendering used in handles. -/
def decDigitVal (c : Char) : Nat := c.toNat - 48

/-- Value of a big-endian decimal digit string. -/
def decListVal (l : List Char) : Nat :=
  l.foldl (fun a c => 10 * a + decDigitVal c) 0

/-- A concrete quiescent editor state used by the witnesses: normal mode,
last visual mode v, all registers empty, no redirection. -/
def sampleState : EditorState :=
  { cursor := (1, 1), mode := "n", lastVisual := "v", reg := fun _ => "",
    redir := none, keylog := [] }

/-- Sample state in visual mode, for the mode-restoration witnesses. -/
def visState : EditorState :=
  { sampleState with mode := "v" }

/-- Sample state with contents in register a, for the register witnesses. -/
def regState : EditorState :=
  { sampleState with reg := fun x => if x = "a" then "hello" else "" }

/-- A wrapped operation that does nothing and succeeds. -/
def idBody : EditorState → Except String Unit × EditorState :=
  fun w => (Except.ok (), w)

/-- A wrapped operation that raises an exception without touching state. -/
def errBody : EditorState → Except String Unit × EditorState :=
  fun w => (Except.error "boom", w)

/-- A wrapped operation that leaves the editor in insert mode. -/
def insertBody : EditorState → Except String Unit × EditorState :=
  fun w => (Except.ok (), { w with mode := "i" })

/-- A wrapped operation that leaves the editor in normal mode. -/
def toNormalBody : EditorState → Except String Unit × EditorState :=
  fun w => (Except.ok (), { w with mode := "n" })

/-- A wrapped operation that leaves the editor in visual mode. -/
def toVisualBody : EditorState → Except String Unit × EditorState :=
  fun w => (Except.ok (), { w with mode := "v" })

/-- The evaluator used by the command witnesses: every command is a no-op
producing no output. -/
def silentExec : String → EditorState → EditorState × String :=
  fun _ w => (w, "")

/-- A concrete callable for the registration counterexample. -/
def c5f : Callable Nat := { ident := 5, ret := 99 }

/-- A concrete callable for the distinct-handle witness. -/
def c6f : Callable Nat := { ident := 1, ret := 10 }

/-- A second concrete callable, behaviorally identical to the first (same
return value) but a distinct object. -/
def c6g : Callable Nat := { ident := 2, ret := 10 }

/-! Helper lemmas about the register write model. -/

theorem write_register_self (r : String → String) (name val : String) :
    write_register r name val name = val := by
  simp [write_register]

theorem write_register_other (r : String → String) (name val x : String)
    (h1 : x ≠ name) (h2 : x ≠ "\"") : write_register r name val x = r x := by
  simp [write_register, h1, h2]

theorem clear_register_reg (name : String) (s : EditorState) (x : String) :
    (clear_register name s).reg x = if x = name ∨ x = "\"" then "" else s.reg x := by
  by_cases h1 : x = name
  · simp [clear_register, set_register, write_register, h1]
  · by_cases h2 : x = "\""
    · by_cases h3 : name = "\""
      · exact absurd (h2.trans h3.symm) h1
      · simp [clear_register, set_register, write_register, h1, h2, h3]
    · simp [clear_register, set_register, write_register, h1, h2]

/-! Helper lemmas about the entry phase of preserve_registers. -/

theorem capture_and_clear_snap_notmem (regs : List String)
    (old : String → Option String) (s : EditorState) (x : String) (hx : x ∉ regs) :
    (capture_and_clear regs old s).1 x = old x := by
  induction regs generalizing old s with
  | nil => rfl
  | cons r rest ih =>
      simp only [List.mem_cons, not_or] at hx
      show (capture_and_clear rest _ _).1 x = old x
      rw [ih _ _ hx.2]
      simp [hx.1]

theorem capture_and_clear_snap_mem (regs : List String)
    (old : String → Option String) (s : EditorState) (r : String)
    (hr : r ∈ regs) (hnd : regs.Nodup) (hq : r ≠ "\"") :
    (capture_and_clear regs old s).1 r = get_register r s := by
  induction regs generalizing old s with
  | nil => cases hr
  | cons a rest ih =>
      rw [List.nodup_cons] at hnd
      rcases List.mem_cons.mp hr with h | h
      · subst h
        show (capture_and_clear rest _ _).1 r = _
        rw [capture_and_clear_snap_notmem rest _ _ r hnd.1]
        simp
      · have har : r ≠ a := by rintro rfl; exact hnd.1 h
        show (capture_and_clear rest _ _).1 r = _
        rw [ih _ _ h hnd.2]
        simp [get_register, clear_register_reg, har, hq]

theorem capture_and_clear_state_empty (regs : List String)
    (old : String → Option String) (s : EditorState) (r : String)
    (h : r ∈ regs ∨ s.reg r = "") :
    (capture_and_clear regs old s).2.reg r = "" := by
  induction regs generalizing old s with
  | nil =>
      rcases h with h | h
      · cases h
      · exact h
  | cons a rest ih =>
      show (capture_and_clear rest _ _).2.reg r = ""
      apply ih
      rcases h with h | h
      · rcases List.mem_cons.mp h with h | h
        · right
          subst h
          simp [clear_register_reg]
        · left
          exact h
      · right
        rw [clear_register_reg]
        by_cases hx : r = a ∨ r = "\""
        · simp [hx]
        · simp [hx, h]

theorem capture_and_clear_state_notmem (regs : List String)
    (old : String → Option String) (s : EditorState) (x : String)
    (hx : x ∉ regs) (hq : x ≠ "\"") :
    (capture_and_clear regs old s).2.reg x = s.reg x := by
  induction regs generalizing old s with
  | nil => rfl
  | cons a rest ih =>
      simp only [List.mem_cons, not_or] at hx
      show (capture_and_clear rest _ _).2.reg x = _
      rw [ih _ _ hx.2]
      simp [clear_register_reg, hx.1, hq]

theorem capture_specials_zero (old : String → Option String) (s : EditorState) :
    capture_specials special_regs old s "0" = get_register "0" s := rfl

theorem capture_specials_dq (old : String → Option String) (s : EditorState) :
    capture_specials special_regs old s "\"" = get_register "\"" s := rfl

theorem capture_specials_notmem (old : String → Option String) (s : EditorState)
    (x : String) (hx0 : x ≠ "0") (hxq : x ≠ "\"") :
    capture_specials special_regs old s x = old x := by
  simp [capture_specials, special_regs, hx0, hxq]

/-! Helper lemmas about the exit phase of preserve_registers. -/

theorem restore_old_regs_append (old : String → Option String)
    (l1 l2 : List String) (s : EditorState) :
    restore_old_regs old (l1 ++ l2) s
      = restore_old_regs old l2 (restore_old_regs old l1 s) := by
  induction l1 generalizing s with
  | nil => rfl
  | cons a rest ih =>
      show restore_old_regs old (rest ++ l2) _ = _
      rw [ih]
      rfl

theorem restore_old_regs_notmem (old : String → Option String)
    (order : List String) (s : EditorState) (x : String)
    (hx : x ∉ order) (hq : x ≠ "\"") :
    (restore_old_regs old order s).reg x = s.reg x := by
  induction order generalizing s with
  | nil => rfl
  | cons a rest ih =>
      simp only [List.mem_cons, not_or] at hx
      show (restore_old_regs old rest _).reg x = _
      rw [ih _ hx.2]
      cases h : old a
      · simp [h, clear_register_reg, hx.1, hq]
      · simp [h, set_register, write_register, hx.1, hq]

theorem restore_old_regs_mem (old : String → Option String)
    (l1 l2 : List String) (r : String) (s : EditorState)
    (hx : r ∉ l2) (hq : r ≠ "\"") :
    (restore_old_regs old (l1 ++ r :: l2) s).reg r = (old r).getD "" := by
  rw [restore_old_regs_append]
  show (restore_old_regs old l2 _).reg r = _
  rw [restore_old_regs_notmem _ _ _ _ hx hq]
  cases h : old r
  · simp [h, clear_register_reg]
  · simp [h, set_register, write_register]

/-! Injectivity of the decimal rendering used inside handles. -/

theorem decListVal_append_digit (xs : List Char) (c : Char) :
    decListVal (xs ++ [c]) = 10 * decListVal xs + decDigitVal c := by
  simp [decListVal, List.foldl_append]

theorem digitChar_val (k : Nat) (hk : k < 10) :
    decDigitVal (Nat.digitChar k) = k := by
  have h : ∀ m, m < 10 → decDigitVal (Nat.digitChar m) = m := by decide
  exact h k hk

theorem toDigitsCore_append (fuel n : Nat) (ds : List Char) :
    Nat.toDigitsCore 10 fuel n ds = Nat.toDigitsCore 10 fuel n [] ++ ds := by
  induction fuel generalizing n ds with
  | zero => simp [Nat.toDigitsCore]
  | succ fuel ih =>
      simp only [Nat.toDigitsCore]
      by_cases h : n / 10 = 0
      · rw [if_pos h, if_pos h]
        rfl
      · rw [if_neg h, if_neg h]
        rw [ih (n / 10) (Nat.digitChar (n % 10) :: ds),
            ih (n / 10) [Nat.digitChar (n % 10)]]
        simp

theorem toDigitsCore_val (fuel n : Nat) (h : n < fuel) :
    decListVal (Nat.toDigitsCore 10 fuel n []) = n := by
  induction fuel generalizing n with
  | zero => omega
  | succ fuel ih =>
      simp only [Nat.toDigitsCore]
      by_cases h0 : n / 10 = 0
      · rw [if_pos h0]
        have hn10 : n < 10 := by omega
        have h1 : decListVal [Nat.digitChar (n % 10)]
            = decDigitVal (Nat.digitChar (n % 10)) := by
          simp [decListVal]
        rw [h1, digitChar_val (n % 10) (Nat.mod_lt n (by norm_num))]
        omega
      · rw [if_neg h0]
        rw [toDigitsCore_append, decListVal_append_digit]
        have hlt : n / 10 < fuel := by
          have h1 : n / 10 < n := Nat.div_lt_self (by omega) (by norm_num)
          omega
        rw [ih _ hlt, digitChar_val (n % 10) (Nat.mod_lt n (by norm_num))]
        omega

theorem nat_repr_data_inj (m n : Nat)
    (h : (Nat.repr m).data = (Nat.repr n).data) : m = n := by
  have hm := toDigitsCore_val (m + 1) m (Nat.lt_succ_self m)
  have hn := toDigitsCore_val (n + 1) n (Nat.lt_succ_self n)
  have h2 : Nat.toDigitsCore 10 (m + 1) m [] = Nat.toDigitsCore 10 (n + 1) n [] := h
  rw [← hm, ← hn, h2]

theorem register_handle_inj (a b : Nat)
    (h : "snake.dispatch_mapped_function(" ++ Nat.repr a ++ ")"
       = "snake.dispatch_mapped_function(" ++ Nat.repr b ++ ")") : a = b := by
  have h2 := congrArg String.data h
  simp only [String.data_append, List.append_assoc] at h2
  exact nat_repr_data_inj a b (List.append_cancel_right (List.append_cancel_left h2))

/-! The registry claims. -/

/-- C1: dispatching the key under which register_fn stored f invokes f exactly
once with no arguments and returns exactly f's return value. -/
theorem C1_dispatch_of_registered (f : Callable α) (reg : Registry α) :
    dispatch_mapped_function (register_fn f reg).2 f.ident
      = (Except.ok f.ret, [f]) := by
  simp [dispatch_mapped_function, register_fn]

/-- C2: dispatching a key absent from the registry always raises the dedicated
stale-handle failure and invokes no stored callable. -/
theorem C2_stale_handle (reg : Registry α) (key : Nat) (h : reg key = none) :
    dispatch_mapped_function reg key
      = (Except.error (stale_handle_message key), []) := by
  simp [dispatch_mapped_function, h]

/-- Witness for C2 at the empty registry and key 7. -/
theorem C2_stale_handle_witness :
    ((fun _ => none : Registry Nat) 7 = none)
    ∧ dispatch_mapped_function (fun _ => none : Registry Nat) 7
        = (Except.error (stale_handle_message 7), []) :=
  ⟨rfl, C2_stale_handle (fun _ => none) 7 rfl⟩

/-- C5 counterexample: registering the same callable twice yields the same
handle both times, so the second registration's handle is not freshly chosen —
it equals a handle already in use. -/
theorem C5_counterexample :
    (register_fn c5f (register_fn c5f (fun _ => none : Registry Nat)).2).1
      = (register_fn c5f (fun _ => none : Registry Nat)).1
    ∧ (register_fn c5f (fun _ => none : Registry Nat)).1
      = "snake.dispatch_mapped_function(5)" :=
  ⟨rfl, rfl⟩

/-- C5 amended: register_fn stores the callable under the key id(fn) — unique
among distinct live callables but reused when the same callable is registered
again — returns the textual handle embedding that key, and changes no registry
entry other than the one at that key. -/
theorem C5_register_fn_amended (f : Callable α) (reg : Registry α) :
    (register_fn f reg).1
      = "snake.dispatch_mapped_function(" ++ Nat.repr f.ident ++ ")"
    ∧ (register_fn f reg).2 f.ident = some f
    ∧ (∀ k, k ≠ f.ident → (register_fn f reg).2 k = reg k) := by
  refine ⟨rfl, by simp [register_fn], ?_⟩
  intro k hk
  simp [register_fn, hk]

/-- Witness for C5 at a concrete callable, registry and unrelated key. -/
theorem C5_register_fn_amended_witness :
    ((3 : Nat) ≠ c5f.ident)
    ∧ (register_fn c5f (fun _ => none : Registry Nat)).2 3 = none :=
  ⟨by decide, (C5_register_fn_amended c5f (fun _ => none)).2.2 3 (by decide)⟩

/-- C6: registering two callables with distinct object identities yields two
distinct textual handles, and both entries stay live in the registry. -/
theorem C6_distinct_handles (f g : Callable α) (reg : Registry α)
    (h : f.ident ≠ g.ident) :
    (register_fn f reg).1 ≠ (register_fn g (register_fn f reg).2).1
    ∧ (register_fn g (register_fn f reg).2).2 f.ident = some f
    ∧ (register_fn g (register_fn f reg).2).2 g.ident = some g := by
  refine ⟨?_, ?_, ?_⟩
  · intro hc
    simp only [register_fn] at hc
    exact h (register_handle_inj _ _ hc)
  · simp [register_fn, h]
  · simp [register_fn]

/-- Witness for C6 at two concrete, behaviorally identical callables. -/
theorem C6_distinct_handles_witness :
    c6f.ident ≠ c6g.ident
    ∧ ((register_fn c6f (fun _ => none : Registry Nat)).1
        ≠ (register_fn c6g (register_fn c6f (fun _ => none : Registry Nat)).2).1
      ∧ (register_fn c6g (register_fn c6f (fun _ => none : Registry Nat)).2).2
          c6f.ident = some c6f
      ∧ (register_fn c6g (register_fn c6f (fun _ => none : Registry Nat)).2).2
          c6g.ident = some c6g) :=
  ⟨by decide, C6_distinct_handles c6f c6g (fun _ => none) (by decide)⟩

/-! Helper lemmas about the key sequences the mode helper feeds. -/

theorem keys_gv (w : EditorState) : keys "gv" w = feedkeys "gv" w := rfl

theorem keys_esc (w : EditorState) : keys "\\<esc>" w = feedkeys "\\<esc>" w := rfl

theorem feedkeys_mode_gv (w : EditorState) :
    (feedkeys "gv" w).mode = w.lastVisual := rfl

theorem feedkeys_keylog_gv (w : EditorState) :
    (feedkeys "gv" w).keylog = w.keylog ++ ["gv"] := rfl

theorem feedkeys_mode_esc (w : EditorState) :
    (feedkeys "\\<esc>" w).mode = "n" := by
  by_cases hv : w.mode ∈ visual_modes <;> simp [feedkeys, hv]

theorem feedkeys_keylog_esc (w : EditorState) :
    (feedkeys "\\<esc>" w).keylog = w.keylog ++ ["\\<esc>"] := by
  by_cases hv : w.mode ∈ visual_modes <;> simp [feedkeys, hv]

/-- Exact characterization of when the finally block of preserve_mode brings
the mode back to the captured one: the modes already agree, or the block ended
in normal mode and the captured mode is a visual mode whose selection is still
recorded, or the block ended in a visual mode and the captured mode is normal
mode. -/
theorem mode_restore_mode (old : String) (w : EditorState)
    (hm : w.mode = old
        ∨ (w.mode = "n" ∧ old ∈ visual_modes ∧ w.lastVisual = old)
        ∨ (w.mode ∈ visual_modes ∧ old = "n")) :
    (mode_restore old w).mode = old := by
  rcases hm with h | ⟨h1, h2, h3⟩ | ⟨h1, h2⟩
  · by_cases hn : w.mode = "n"
    · have hnv : old ∉ visual_modes := by
        rw [← h, hn]; decide
      unfold mode_restore
      rw [if_pos (show get_mode w = "n" from hn), if_neg hnv]
      exact h
    · unfold mode_restore
      rw [if_neg (show ¬ get_mode w = "n" from hn)]
      by_cases hv : w.mode ∈ visual_modes
      · have hon : old ≠ "n" := fun hc => hn (h.trans hc)
        rw [if_pos (show get_mode w ∈ visual_modes from hv), if_neg hon]
        exact h
      · rw [if_neg (show ¬ get_mode w ∈ visual_modes from hv)]
        exact h
  · unfold mode_restore
    rw [if_pos (show get_mode w = "n" from h1), if_pos h2, keys_gv, feedkeys_mode_gv]
    exact h3
  · have hn : ¬ get_mode w = "n" := by
      intro hc
      rw [show get_mode w = w.mode from rfl] at hc
      rw [hc] at h1
      exact absurd h1 (by decide)
    unfold mode_restore
    rw [if_neg hn, if_pos (show get_mode w ∈ visual_modes from h1),
        if_pos h2, keys_esc, feedkeys_mode_esc]
    exact h2.symm

theorem get_register_getD (x : String) (s : EditorState) :
    (get_register x s).getD "" = s.reg x := by
  by_cases h : s.reg x = "" <;> simp [get_register, h]

/-- The named registers passed to preserve_registers — when distinct and not
special — come back to their entry contents after the block, whatever the
block did. -/
theorem preserve_registers_named (regs : List String)
    (body : EditorState → α × EditorState) (u : EditorState) (r : String)
    (hnd : regs.Nodup) (hr : r ∈ regs) (hrs : r ∉ special_regs) :
    (preserve_registers regs body u).2.reg r = u.reg r := by
  have hq : r ≠ "\"" := by
    intro hc; rw [hc] at hrs; exact hrs (by decide)
  have h0 : r ≠ "0" := by
    intro hc; rw [hc] at hrs; exact hrs (by decide)
  obtain ⟨l1, l2, hsplit⟩ := List.append_of_mem hr
  subst hsplit
  have hrl2 : r ∉ l2 := by
    have h2 := hnd.of_append_right
    exact (List.nodup_cons.mp h2).1
  have hmem : r ∉ l2 ++ special_regs := by
    intro hc
    rcases List.mem_append.mp hc with hc | hc
    · exact hrl2 hc
    · exact hrs hc
  show (restore_old_regs (registers_snapshot (l1 ++ r :: l2) u).1
      ((l1 ++ r :: l2) ++ special_regs) _).reg r = u.reg r
  have horder : (l1 ++ r :: l2) ++ special_regs = l1 ++ r :: (l2 ++ special_regs) := by
    simp
  rw [horder, restore_old_regs_mem _ _ _ _ _ hmem hq]
  show (capture_specials special_regs
      (capture_and_clear (l1 ++ r :: l2) (fun _ => none) u).1
      (capture_and_clear (l1 ++ r :: l2) (fun _ => none) u).2 r).getD "" = u.reg r
  rw [capture_specials_notmem _ _ _ h0 hq,
      capture_and_clear_snap_mem _ _ _ _ hr hnd hq, get_register_getD]

/-- C3 counterexample: a wrapped operation that leaves the editor in insert
mode defeats preserve_mode — the finally block only handles the normal/visual
asymmetry, so the mode observed after the block (insert) differs from the mode
observed before it (normal). -/
theorem C3_counterexample :
    sampleState.mode = "n"
    ∧ (preserve_mode insertBody sampleState).2.mode = "i"
    ∧ (preserve_mode insertBody sampleState).2.mode ≠ sampleState.mode :=
  ⟨rfl, rfl, by decide⟩

/-- C3 amended: the cursor is always restored, and so is every requested named
register when the requested names are distinct and not special; the editor
mode is restored only when the entry and exit modes agree, or exactly one of
them is normal mode and the other a visual mode (re-entering visual mode
relying on the recorded last visual selection).  All of this holds for an
arbitrary wrapped operation, whether it returned normally or raised. -/
theorem C3_preservation_amended
    (bodyC bodyM bodyR : EditorState → Except String β × EditorState)
    (regs : List String) (r : String) (s t u : EditorState)
    (hnd : regs.Nodup) (hr : r ∈ regs) (hrs : r ∉ special_regs)
    (hm : (bodyM t).2.mode = t.mode
        ∨ ((bodyM t).2.mode = "n" ∧ t.mode ∈ visual_modes
            ∧ (bodyM t).2.lastVisual = t.mode)
        ∨ ((bodyM t).2.mode ∈ visual_modes ∧ t.mode = "n")) :
    (preserve_cursor bodyC s).2.cursor = s.cursor
    ∧ (preserve_mode bodyM t).2.mode = t.mode
    ∧ (preserve_registers regs bodyR u).2.reg r = u.reg r :=
  ⟨rfl, mode_restore_mode t.mode (bodyM t).2 hm,
   preserve_registers_named regs bodyR u r hnd hr hrs⟩

/-- Witness for the amended C3 at concrete bodies, states and register list. -/
theorem C3_preservation_amended_witness :
    (["a"] : List String).Nodup
    ∧ "a" ∈ (["a"] : List String)
    ∧ "a" ∉ special_regs
    ∧ ((idBody sampleState).2.mode = sampleState.mode
        ∨ ((idBody sampleState).2.mode = "n" ∧ sampleState.mode ∈ visual_modes
            ∧ (idBody sampleState).2.lastVisual = sampleState.mode)
        ∨ ((idBody sampleState).2.mode ∈ visual_modes ∧ sampleState.mode = "n"))
    ∧ ((preserve_cursor idBody sampleState).2.cursor = sampleState.cursor
      ∧ (preserve_mode idBody sampleState).2.mode = sampleState.mode
      ∧ (preserve_registers ["a"] idBody regState).2.reg "a" = regState.reg "a") :=
  ⟨by decide, by decide, by decide, Or.inl rfl,
   C3_preservation_amended idBody idBody idBody ["a"] "a" sampleState sampleState
     regState (by decide) (by decide) (by decide) (Or.inl rfl)⟩

/-! Helper lemmas for the special-register restoration order. -/

theorem restore_single_reg (old : String → Option String) (r : String)
    (w : EditorState) (x : String) :
    (restore_old_regs old [r] w).reg x = write_register w.reg r ((old r).getD "") x := by
  simp only [restore_old_regs]
  cases h : old r <;> simp [h, clear_register, set_register]

theorem restore_specials_zero (old : String → Option String) (w : EditorState) :
    (restore_old_regs old special_regs w).reg "0" = (old "0").getD "" := by
  rw [show special_regs = ["0"] ++ ["\""] from rfl, restore_old_regs_append,
      restore_single_reg, write_register_other _ _ _ _ (by decide) (by decide),
      restore_single_reg, write_register_self]

theorem restore_specials_dq (old : String → Option String) (w : EditorState) :
    (restore_old_regs old special_regs w).reg "\"" = (old "\"").getD "" := by
  rw [show special_regs = ["0"] ++ ["\""] from rfl, restore_old_regs_append,
      restore_single_reg, write_register_self]

/-- C4: the finally block of preserve_registers restores the named registers
first and the special registers after them, and the special registers' final
contents equal their contents in the state immediately before the wrapped
block ran — never an intermediate value produced by the block or by the
named-register restoration. -/
theorem C4_specials_restored_last (regs : List String)
    (body : EditorState → α × EditorState) (s : EditorState) :
    (preserve_registers regs body s).2
      = restore_old_regs (registers_snapshot regs s).1 special_regs
          (restore_old_regs (registers_snapshot regs s).1 regs
            (body (registers_snapshot regs s).2).2)
    ∧ (preserve_registers regs body s).2.reg "0"
        = (registers_snapshot regs s).2.reg "0"
    ∧ (preserve_registers regs body s).2.reg "\""
        = (registers_snapshot regs s).2.reg "\"" := by
  have hunf : (preserve_registers regs body s).2
      = restore_old_regs (registers_snapshot regs s).1 (regs ++ special_regs)
          (body (registers_snapshot regs s).2).2 := rfl
  have hsnap0 : (registers_snapshot regs s).1 "0"
      = get_register "0" (registers_snapshot regs s).2 :=
    capture_specials_zero (capture_and_clear regs (fun _ => none) s).1
      (capture_and_clear regs (fun _ => none) s).2
  have hsnapq : (registers_snapshot regs s).1 "\""
      = get_register "\"" (registers_snapshot regs s).2 :=
    capture_specials_dq (capture_and_clear regs (fun _ => none) s).1
      (capture_and_clear regs (fun _ => none) s).2
  refine ⟨?_, ?_, ?_⟩
  · rw [hunf, restore_old_regs_append]
  · rw [hunf, restore_old_regs_append, restore_specials_zero, hsnap0,
      get_register_getD]
  · rw [hunf, restore_old_regs_append, restore_specials_dq, hsnapq,
      get_register_getD]

/-- C7: a failure raised by the wrapped operation propagates unchanged — the
same exception value — through each of the three helpers, and each helper's
restoration step still runs on the exceptional exit path, applied to the
body's post-state. -/
theorem C7_error_propagation
    (bodyC bodyM bodyR : EditorState → Except String β × EditorState)
    (regs : List String) (s t u : EditorState) (e1 e2 e3 : String)
    (s1 t1 u1 : EditorState)
    (hC : bodyC s = (Except.error e1, s1))
    (hM : bodyM t = (Except.error e2, t1))
    (hR : bodyR (registers_snapshot regs u).2 = (Except.error e3, u1)) :
    preserve_cursor bodyC s
      = (Except.error e1, set_cursor_position (get_cursor_position s) s1)
    ∧ preserve_mode bodyM t = (Except.error e2, mode_restore (get_mode t) t1)
    ∧ preserve_registers regs bodyR u
        = (Except.error e3,
           restore_old_regs (registers_snapshot regs u).1 (regs ++ special_regs) u1) := by
  refine ⟨?_, ?_, ?_⟩
  · simp [preserve_cursor, hC]
  · simp [preserve_mode, hM]
  · simp [preserve_registers, hR]

/-- Witness for C7 at a concrete raising body and state. -/
theorem C7_error_propagation_witness :
    errBody sampleState = (Except.error "boom", sampleState)
    ∧ errBody (registers_snapshot ["a"] sampleState).2
        = (Except.error "boom", (registers_snapshot ["a"] sampleState).2)
    ∧ (preserve_cursor errBody sampleState
        = (Except.error "boom",
           set_cursor_position (get_cursor_position sampleState) sampleState)
      ∧ preserve_mode errBody sampleState
          = (Except.error "boom", mode_restore (get_mode sampleState) sampleState)
      ∧ preserve_registers ["a"] errBody sampleState
          = (Except.error "boom",
             restore_old_regs (registers_snapshot ["a"] sampleState).1
               (["a"] ++ special_regs) (registers_snapshot ["a"] sampleState).2)) :=
  ⟨rfl, rfl,
   C7_error_propagation errBody errBody errBody ["a"] sampleState sampleState
     sampleState "boom" "boom" "boom" sampleState sampleState
     (registers_snapshot ["a"] sampleState).2 rfl rfl rfl⟩

/-- C8: the asymmetric mode restoration of preserve_mode: when the block was
entered in a visual mode and left in normal mode the helper feeds the reselect
keystroke gv, re-entering the recorded visual mode; when the block left the
editor in a visual mode although it was entered in normal mode the helper
feeds the escape keystroke, returning to normal mode. -/
theorem C8_mode_keystrokes (body : EditorState → α × EditorState)
    (s : EditorState) :
    (s.mode ∈ visual_modes → (body s).2.mode = "n" →
      (preserve_mode body s).2 = keys "gv" (body s).2
      ∧ (preserve_mode body s).2.keylog = (body s).2.keylog ++ ["gv"]
      ∧ (preserve_mode body s).2.mode = (body s).2.lastVisual)
    ∧ ((body s).2.mode ∈ visual_modes → s.mode = "n" →
      (preserve_mode body s).2 = keys "\\<esc>" (body s).2
      ∧ (preserve_mode body s).2.keylog = (body s).2.keylog ++ ["\\<esc>"]
      ∧ (preserve_mode body s).2.mode = "n") := by
  constructor
  · intro hv hn
    have hrest : mode_restore (get_mode s) (body s).2 = keys "gv" (body s).2 := by
      unfold mode_restore
      rw [if_pos (show get_mode (body s).2 = "n" from hn),
          if_pos (show get_mode s ∈ visual_modes from hv)]
    refine ⟨hrest, ?_, ?_⟩
    · show (mode_restore (get_mode s) (body s).2).keylog = _
      rw [hrest, keys_gv, feedkeys_keylog_gv]
    · show (mode_restore (get_mode s) (body s).2).mode = _
      rw [hrest, keys_gv, feedkeys_mode_gv]
  · intro hv hn
    have hcur : ¬ get_mode (body s).2 = "n" := by
      intro hc
      rw [show get_mode (body s).2 = (body s).2.mode from rfl] at hc
      rw [hc] at hv
      exact absurd hv (by decide)
    have hrest : mode_restore (get_mode s) (body s).2
        = keys "\\<esc>" (body s).2 := by
      unfold mode_restore
      rw [if_neg hcur, if_pos (show get_mode (body s).2 ∈ visual_modes from hv),
          if_pos (show get_mode s = "n" from hn)]
    refine ⟨hrest, ?_, ?_⟩
    · show (mode_restore (get_mode s) (body s).2).keylog = _
      rw [hrest, keys_esc, feedkeys_keylog_esc]
    · show (mode_restore (get_mode s) (body s).2).mode = _
      rw [hrest, keys_esc, feedkeys_mode_esc]

/-- Witness for C8 in both directions: a block leaving visual mode for normal
mode, and a block entering visual mode from normal mode. -/
theorem C8_mode_keystrokes_witness :
    (visState.mode ∈ visual_modes
      ∧ (toNormalBody visState).2.mode = "n"
      ∧ ((preserve_mode toNormalBody visState).2 = keys "gv" (toNormalBody visState).2
        ∧ (preserve_mode toNormalBody visState).2.keylog
            = (toNormalBody visState).2.keylog ++ ["gv"]
        ∧ (preserve_mode toNormalBody visState).2.mode
            = (toNormalBody visState).2.lastVisual))
    ∧ ((toVisualBody sampleState).2.mode ∈ visual_modes
      ∧ sampleState.mode = "n"
      ∧ ((preserve_mode toVisualBody sampleState).2
            = keys "\\<esc>" (toVisualBody sampleState).2
        ∧ (preserve_mode toVisualBody sampleState).2.keylog
            = (toVisualBody sampleState).2.keylog ++ ["\\<esc>"]
        ∧ (preserve_mode toVisualBody sampleState).2.mode = "n")) :=
  ⟨⟨by decide, rfl, (C8_mode_keystrokes toNormalBody visState).1 (by decide) rfl⟩,
   ⟨by decide, rfl, (C8_mode_keystrokes toVisualBody sampleState).2 (by decide) rfl⟩⟩

/-- C9: on entry preserve_registers captures and then clears every requested
named register before the block runs — the block starts with empty contents in
each of them — while the special registers are captured into the snapshot at
their pre-block values without being cleared: register 0 still holds its
entry contents when it is not itself among the requested names. -/
theorem C9_entry_clears_named (regs : List String)
    (body : EditorState → α × EditorState) (s : EditorState) (r : String)
    (hr : r ∈ regs) (h0 : "0" ∉ regs) :
    (registers_snapshot regs s).2.reg r = ""
    ∧ (preserve_registers regs body s).1 = (body (registers_snapshot regs s).2).1
    ∧ (registers_snapshot regs s).2.reg "0" = s.reg "0"
    ∧ (registers_snapshot regs s).1 "0"
        = get_register "0" (registers_snapshot regs s).2
    ∧ (registers_snapshot regs s).1 "\""
        = get_register "\"" (registers_snapshot regs s).2 := by
  refine ⟨?_, rfl, ?_, ?_, ?_⟩
  · exact capture_and_clear_state_empty regs (fun _ => none) s r (Or.inl hr)
  · exact capture_and_clear_state_notmem regs (fun _ => none) s "0" h0 (by decide)
  · exact capture_specials_zero (capture_and_clear regs (fun _ => none) s).1
      (capture_and_clear regs (fun _ => none) s).2
  · exact capture_specials_dq (capture_and_clear regs (fun _ => none) s).1
      (capture_and_clear regs (fun _ => none) s).2

/-- Witness for C9 at a concrete register list and state with contents. -/
theorem C9_entry_clears_named_witness :
    "a" ∈ (["a"] : List String)
    ∧ "0" ∉ (["a"] : List String)
    ∧ ((registers_snapshot ["a"] regState).2.reg "a" = ""
      ∧ (preserve_registers ["a"] idBody regState).1
          = (idBody (registers_snapshot ["a"] regState).2).1
      ∧ (registers_snapshot ["a"] regState).2.reg "0" = regState.reg "0"
      ∧ (registers_snapshot ["a"] regState).1 "0"
          = get_register "0" (registers_snapshot ["a"] regState).2
      ∧ (registers_snapshot ["a"] regState).1 "\""
          = get_register "\"" (registers_snapshot ["a"] regState).2) :=
  ⟨by decide, by decide,
   C9_entry_clears_named ["a"] idBody regState "a" (by decide) (by decide)⟩

/-! Helper lemmas for command output capture. -/

theorem get_register_ne_some_empty (x : String) (w : EditorState) :
    get_register x w ≠ some "" := by
  by_cases h : w.reg x = "" <;> simp [get_register, h]

theorem vim_command_start_reg_a
    (exec : String → EditorState → EditorState × String) (w : EditorState) :
    (vim_command exec "redir @a" w).reg "a" = "" := by
  unfold vim_command
  rw [if_pos rfl]
  exact write_register_self w.reg "a" ""

theorem vim_command_start_redir
    (exec : String → EditorState → EditorState × String) (w : EditorState) :
    (vim_command exec "redir @a" w).redir = some "a" := by
  unfold vim_command
  rw [if_pos rfl]

theorem vim_command_end_reg
    (exec : String → EditorState → EditorState × String) (x : EditorState)
    (nm : String) : (vim_command exec "redir END" x).reg nm = x.reg nm := by
  unfold vim_command
  rw [if_neg (show ¬ ("redir END" : String) = "redir @a" by decide), if_pos rfl]

/-- Reading register a after the redirect-execute-end sequence of command()
yields None whenever the executed command produces no output and leaves
register a and the redirection state alone. -/
theorem capture_chain_reads_none
    (exec : String → EditorState → EditorState × String) (cmd : String)
    (hout : ∀ w, (exec cmd w).2 = "")
    (hrega : ∀ w, (exec cmd w).1.reg "a" = w.reg "a")
    (hredir : ∀ w, (exec cmd w).1.redir = w.redir)
    (w : EditorState) :
    get_register "a"
      (vim_command exec "redir END"
        (vim_command exec cmd (vim_command exec "redir @a" w))) = none := by
  have h2 : (vim_command exec cmd (vim_command exec "redir @a" w)).reg "a" = "" := by
    by_cases hc1 : cmd = "redir @a"
    · subst hc1
      exact vim_command_start_reg_a exec _
    · by_cases hc2 : cmd = "redir END"
      · subst hc2
        rw [vim_command_end_reg]
        exact vim_command_start_reg_a exec w
      · have key : ∀ v : EditorState, v.redir = some "a" → v.reg "a" = "" →
            (vim_command exec cmd v).reg "a" = "" := by
          intro v hv1 hv2
          have hunf : vim_command exec cmd v
              = set_register "a" ((exec cmd v).1.reg "a" ++ (exec cmd v).2)
                  (exec cmd v).1 := by
            unfold vim_command
            rw [if_neg hc1, if_neg hc2, hredir, hv1]
          rw [hunf]
          show write_register (exec cmd v).1.reg "a"
              ((exec cmd v).1.reg "a" ++ (exec cmd v).2) "a" = ""
          rw [write_register_self, hrega, hv2, hout]
          rfl
        exact key (vim_command exec "redir @a" w)
          (vim_command_start_redir exec w) (vim_command_start_reg_a exec w)
  simp [get_register, vim_command_end_reg, h2]

/-- C10: get_register yields None — never Some of the empty string — for an
empty register; consequently command with capture returns None whenever the
executed command produces no output (and does not itself touch register a or
the redirection state), and command without capture always returns None. -/
theorem C10_empty_output_none
    (exec : String → EditorState → EditorState × String) (cmd : String)
    (s t : EditorState) (name : String)
    (hout : ∀ w, (exec cmd w).2 = "")
    (hrega : ∀ w, (exec cmd w).1.reg "a" = w.reg "a")
    (hredir : ∀ w, (exec cmd w).1.redir = w.redir)
    (hempty : t.reg name = "") :
    get_register name t = none
    ∧ (∀ w x, get_register x w ≠ some "")
    ∧ (command exec cmd true s).1 = none
    ∧ (command exec cmd false s).1 = none := by
  refine ⟨by simp [get_register, hempty],
    fun w x => get_register_ne_some_empty x w, ?_, rfl⟩
  exact capture_chain_reads_none exec cmd hout hrega hredir
    (registers_snapshot ["a"] s).2

/-- Witness for C10 at a silent evaluator and concrete states. -/
theorem C10_empty_output_none_witness :
    (∀ w, (silentExec "ls" w).2 = "")
    ∧ (∀ w, (silentExec "ls" w).1.reg "a" = w.reg "a")
    ∧ (∀ w, (silentExec "ls" w).1.redir = w.redir)
    ∧ sampleState.reg "b" = ""
    ∧ (get_register "b" sampleState = none
      ∧ (∀ w x, get_register x w ≠ some "")
      ∧ (command silentExec "ls" true sampleState).1 = none
      ∧ (command silentExec "ls" false sampleState).1 = none) :=
  ⟨fun _ => rfl, fun _ => rfl, fun _ => rfl, rfl,
   C10_empty_output_none silentExec "ls" sampleState sampleState "b"
     (fun _ => rfl) (fun _ => rfl) (fun _ => rfl) rfl⟩
